import Mathlib

/-!
Verification of the real-time audio and call-signaling core of the
Kampung AI client.

The definitions below are a shallow embedding of the code:

* PCM encode loop and `decodeAudioData` from `src/index.tsx`
  (lines 87-105 and 342-347);
* the gapless playback cursor from `src/index.tsx` (lines 367-381);
* the tool-call dispatch loop from `src/index.tsx` (lines 384-407);
* the capture callback and mic toggle from `src/index.tsx`
  (lines 329-360 and 657);
* the call signaling functions `initiateCall`, `acceptCall`,
  `endCall`, `declineCall` and their relay-store effects from
  `src/unnamed/part_001` (lines 1350-1527).

JavaScript numbers are modelled as rationals (reals where a square
root is taken), `Int16Array` stores as truncation toward zero followed
by a wrap into the signed 16-bit range, and the Firebase relay store
as explicit finite maps.
-/

namespace KampungAI

/-! ## PCM codec (src/index.tsx) -/

/-- JS clamp from the encode loop, line 345:
`Math.max(-1, Math.min(1, inputData[i]))`. -/
def clamp1 (s : ℚ) : ℚ := max (-1) (min 1 s)

/-- Truncation toward zero: the ToIntegerOrInfinity conversion JS applies
when a number is stored into an `Int16Array` element. -/
def truncZ (q : ℚ) : ℤ := if 0 ≤ q then ⌊q⌋ else ⌈q⌉

/-- Wrap an integer into the signed 16-bit range, as an `Int16Array`
store does (reduce modulo 2^16, reinterpret signed). -/
def toInt16 (x : ℤ) : ℤ := (x + 32768) % 65536 - 32768

/-- One sample of the outbound encode loop, lines 343-347: clamp to
[-1,1], scale negative values by 0x8000 and non-negative values by
0x7FFF, store into an `Int16Array` slot. -/
def encodeSample (s : ℚ) : ℤ :=
  toInt16 (truncZ (if clamp1 s < 0 then clamp1 s * 32768 else clamp1 s * 32767))

/-- Little-endian byte pair of one stored 16-bit value, as read back from
the underlying buffer (`pcm16.buffer`, line 349). -/
def bytesOfInt16 (v : ℤ) : List ℕ :=
  [(v % 65536).toNat % 256, (v % 65536).toNat / 256]

/-- Full outbound encoding: a frame of samples to the little-endian PCM16
byte stream that is base64-encoded and transmitted. -/
def encodePcm16 (s : List ℚ) : List ℕ := (s.map encodeSample).flatMap bytesOfInt16

/-- Reinterpret two consecutive bytes as one little-endian signed 16-bit
value, as the `Int16Array` view in `decodeAudioData` does.  Byte values
are reduced modulo 256 as a `Uint8Array` store would. -/
def int16OfBytes (lo hi : ℕ) : ℤ :=
  if lo % 256 + 256 * (hi % 256) < 32768 then ((lo % 256 + 256 * (hi % 256) : ℕ) : ℤ)
  else ((lo % 256 + 256 * (hi % 256) : ℕ) : ℤ) - 65536

/-- The per-sample loop of `decodeAudioData`, lines 97-103 with
`numChannels = 1`: each 16-bit value divided by 32768. -/
def decodeSamplesList : List ℕ → List ℚ
  | lo :: hi :: rest => ((int16OfBytes lo hi : ℚ) / 32768) :: decodeSamplesList rest
  | _ => []

/-- The function `decodeAudioData` of src/index.tsx lines 87-105, with its
two error paths; a throw is `none`.  Its first statement,
`new Int16Array(data.buffer)`, throws a RangeError when the byte length of
the buffer is not a multiple of 2.  Then `frameCount = dataInt16.length`
(one channel), and line 95 calls `ctx.createBuffer(1, frameCount, 24000)`,
which throws a NotSupportedError when the frame count is zero — so the
empty buffer also throws. -/
def decodeAudioData (data : List ℕ) : Option (List ℚ) :=
  if data.length % 2 ≠ 0 then none
  else if data.length / 2 = 0 then none
  else some (decodeSamplesList data)

/-! ## Playback scheduling (src/index.tsx lines 378-381) -/

/-- The playback scheduling loop.  For each inbound chunk, given the clock
reading `now` at arrival and the decoded buffer duration `d`, the code
computes `startTime = Math.max(now, nextStartTimeRef.current)`, starts the
source at `startTime`, and sets
`nextStartTimeRef.current = startTime + audioBuffer.duration`.
Input: the cursor and the arrival list of `(now, duration)` pairs.
Output: the list of `(startTime, duration)` pairs actually scheduled. -/
def scheduleAll (cursor : ℚ) : List (ℚ × ℚ) → List (ℚ × ℚ)
  | [] => []
  | (now, d) :: rest => (max now cursor, d) :: scheduleAll (max now cursor + d) rest

/-! ## Basic lemmas about the codec -/

lemma clamp1_eq_self {s : ℚ} (h1 : -1 ≤ s) (h2 : s ≤ 1) : clamp1 s = s := by
  unfold clamp1
  rw [min_eq_right h2, max_eq_right h1]

lemma toInt16_eq_self {x : ℤ} (h1 : -32768 ≤ x) (h2 : x ≤ 32767) : toInt16 x = x := by
  unfold toInt16
  omega

lemma encodeSample_range (s : ℚ) : -32768 ≤ encodeSample s ∧ encodeSample s ≤ 32767 := by
  unfold encodeSample toInt16
  omega

lemma int16OfBytes_bytesOfInt16 {v : ℤ} (h1 : -32768 ≤ v) (h2 : v ≤ 32767) :
    int16OfBytes ((v % 65536).toNat % 256) ((v % 65536).toNat / 256) = v := by
  unfold int16OfBytes
  split_ifs <;> omega

/-- Per-sample round-trip error bound: encoding then decoding moves a
sample in [-1,1] by at most two quantization steps. -/
lemma encodeSample_decode_close {s : ℚ} (h1 : -1 ≤ s) (h2 : s ≤ 1) :
    |((encodeSample s : ℤ) : ℚ) / 32768 - s| ≤ 1/16384 := by
  have hc : clamp1 s = s := clamp1_eq_self h1 h2
  unfold encodeSample
  rw [hc]
  by_cases hs : s < 0
  · rw [if_pos hs]
    have hneg : ¬ (0 ≤ s * 32768) := by nlinarith
    unfold truncZ
    rw [if_neg hneg]
    have hce1 : (s * 32768 : ℚ) ≤ (⌈s * 32768⌉ : ℚ) := Int.le_ceil _
    have hce2 : ((⌈s * 32768⌉ : ℤ) : ℚ) < s * 32768 + 1 := Int.ceil_lt_add_one _
    have hlo : -32768 ≤ ⌈s * 32768⌉ := by
      have hq : (-32768 : ℚ) ≤ ((⌈s * 32768⌉ : ℤ) : ℚ) := by nlinarith
      exact_mod_cast hq
    have hhi : ⌈s * 32768⌉ ≤ 32767 := by
      have hq : ((⌈s * 32768⌉ : ℤ) : ℚ) < 32768 := by nlinarith
      have : ⌈s * 32768⌉ < 32768 := by exact_mod_cast hq
      omega
    rw [toInt16_eq_self hlo hhi]
    rw [abs_le]
    constructor <;> linarith
  · rw [if_neg hs]
    push_neg at hs
    have hpos : 0 ≤ s * 32767 := by nlinarith
    unfold truncZ
    rw [if_pos hpos]
    have hf1 : ((⌊s * 32767⌋ : ℤ) : ℚ) ≤ s * 32767 := Int.floor_le _
    have hf2 : (s * 32767 : ℚ) < (⌊s * 32767⌋ : ℤ) + 1 := Int.lt_floor_add_one _
    have hlo : -32768 ≤ ⌊s * 32767⌋ := by
      have hq : (-32768 : ℚ) < ((⌊s * 32767⌋ : ℤ) : ℚ) + 1 := by nlinarith
      have : -32769 < ⌊s * 32767⌋ := by exact_mod_cast (by linarith : (-32769 : ℚ) < ((⌊s * 32767⌋ : ℤ) : ℚ))
      omega
    have hhi : ⌊s * 32767⌋ ≤ 32767 := by
      have hq : ((⌊s * 32767⌋ : ℤ) : ℚ) ≤ 32767 := by nlinarith
      exact_mod_cast hq
    rw [toInt16_eq_self hlo hhi]
    rw [abs_le]
    constructor <;> linarith

/-- Decoding the encoded byte stream recovers exactly the stored 16-bit
values divided by 32768. -/
lemma decode_encode_list (s : List ℚ) :
    decodeSamplesList (encodePcm16 s) =
      s.map (fun x => ((encodeSample x : ℤ) : ℚ) / 32768) := by
  induction s with
  | nil => rfl
  | cons x t ih =>
    have hr := encodeSample_range x
    rw [encodePcm16, List.map_cons, List.flatMap_cons, ← encodePcm16]
    rw [bytesOfInt16, List.cons_append, List.singleton_append]
    rw [decodeSamplesList]
    rw [int16OfBytes_bytesOfInt16 hr.1 hr.2, ih, List.map_cons]

lemma encodePcm16_length (s : List ℚ) : (encodePcm16 s).length = 2 * s.length := by
  induction s with
  | nil => rfl
  | cons x t ih =>
    rw [encodePcm16, List.map_cons, List.flatMap_cons, ← encodePcm16]
    rw [bytesOfInt16, List.cons_append, List.singleton_append]
    simp only [List.length_cons, ih]
    ring

lemma decodeSamplesList_length : ∀ b : List ℕ, (decodeSamplesList b).length = b.length / 2
  | [] => by simp [decodeSamplesList]
  | [x] => by simp [decodeSamplesList]
  | lo :: hi :: rest => by
    rw [decodeSamplesList]
    simp only [List.length_cons]
    rw [decodeSamplesList_length rest]
    omega

/-! ## Lemmas about the playback cursor -/

lemma scheduleAll_chain_sep :
    ∀ (l : List (ℚ × ℚ)) (cursor : ℚ), (∀ p ∈ l, 0 ≤ p.2) →
      List.Chain' (fun a b => a.1 + a.2 ≤ b.1) (scheduleAll cursor l)
  | [], _, _ => List.chain'_nil
  | [(_, _)], _, _ => by
    rw [scheduleAll, scheduleAll]
    exact List.chain'_singleton _
  | (now, d) :: (now', d') :: t, cursor, hd => by
    rw [scheduleAll, scheduleAll]
    rw [List.chain'_cons]
    refine ⟨le_max_right _ _, ?_⟩
    have h2 := scheduleAll_chain_sep ((now', d') :: t) (max now cursor + d)
      (fun p hp => hd p (List.mem_cons_of_mem _ hp))
    rw [scheduleAll] at h2
    exact h2

lemma scheduleAll_chain_mono :
    ∀ (l : List (ℚ × ℚ)) (cursor : ℚ), (∀ p ∈ l, 0 ≤ p.2) →
      List.Chain' (fun a b => a.1 ≤ b.1) (scheduleAll cursor l)
  | [], _, _ => List.chain'_nil
  | [(_, _)], _, _ => by
    rw [scheduleAll, scheduleAll]
    exact List.chain'_singleton _
  | (now, d) :: (now', d') :: t, cursor, hd => by
    rw [scheduleAll, scheduleAll]
    rw [List.chain'_cons]
    constructor
    · have hdd : 0 ≤ d := hd (now, d) (List.mem_cons_self _ _)
      calc max now cursor ≤ max now cursor + d := le_add_of_nonneg_right hdd
        _ ≤ max now' (max now cursor + d) := le_max_right _ _
    · have h2 := scheduleAll_chain_mono ((now', d') :: t) (max now cursor + d)
        (fun p hp => hd p (List.mem_cons_of_mem _ hp))
      rw [scheduleAll] at h2
      exact h2

/-! ## Claim theorems: streaming pipeline -/

/-- C2 (confirmed).  Playback scheduling is gapless and non-overlapping:
each inbound chunk is scheduled at start = max(clockNow at arrival,
nextStart) and the cursor advances to start + duration; for any arrival
sequence with non-negative durations the resulting start times are
non-decreasing and consecutive scheduled intervals never overlap
(each interval ends no later than the next one starts). -/
theorem C2_gapless_scheduling (arrivals : List (ℚ × ℚ)) (cursor : ℚ)
    (h : ∀ p ∈ arrivals, 0 ≤ p.2) :
    (∀ (c now d : ℚ) (rest : List (ℚ × ℚ)),
        scheduleAll c ((now, d) :: rest)
          = (max now c, d) :: scheduleAll (max now c + d) rest)
    ∧ List.Chain' (fun a b => a.1 ≤ b.1) (scheduleAll cursor arrivals)
    ∧ List.Chain' (fun a b => a.1 + a.2 ≤ b.1) (scheduleAll cursor arrivals) :=
  ⟨fun _ _ _ _ => rfl,
   scheduleAll_chain_mono arrivals cursor h,
   scheduleAll_chain_sep arrivals cursor h⟩

/-- Witness for C2 at a concrete jittery arrival sequence. -/
theorem C2_gapless_scheduling_witness :
    (∀ p ∈ [((0 : ℚ), (1 : ℚ)), (1, 0), (0, 1)], 0 ≤ p.2)
    ∧ List.Chain' (fun a b => a.1 + a.2 ≤ b.1)
        (scheduleAll 0 [((0 : ℚ), (1 : ℚ)), (1, 0), (0, 1)]) :=
  ⟨by simp, (C2_gapless_scheduling [((0 : ℚ), (1 : ℚ)), (1, 0), (0, 1)] 0 (by simp)).2.2⟩

/-- C3 counterexample.  The claimed one-quantization-step bound
(1/32768) fails: for the single-sample array [65533/65534] the code
encodes 32766 (the non-negative branch scales by 32767, then truncates)
and decodes 16383/16384, an error strictly larger than 1/32768. -/
theorem C3_roundtrip_one_step_counterexample :
    decodeAudioData (encodePcm16 [(65533 : ℚ)/65534]) = some [16383/16384]
    ∧ 1/32768 < |(16383 : ℚ)/16384 - 65533/65534| := by
  have h1 : encodeSample ((65533 : ℚ)/65534) = 32766 := by
    unfold encodeSample clamp1 truncZ
    rw [min_eq_right (by norm_num : (65533 : ℚ)/65534 ≤ 1)]
    rw [max_eq_right (by norm_num : (-1 : ℚ) ≤ 65533/65534)]
    rw [if_neg (by norm_num : ¬ ((65533 : ℚ)/65534 < 0))]
    rw [if_pos (by norm_num : (0 : ℚ) ≤ 65533/65534 * 32767)]
    have h2 : (65533 : ℚ)/65534 * 32767 = 65533/2 := by norm_num
    rw [h2]
    have h3 : ⌊(65533 : ℚ)/2⌋ = 32766 := by norm_num
    rw [h3]
    unfold toInt16
    decide
  have h2 : encodePcm16 [(65533 : ℚ)/65534] = [254, 127] := by
    unfold encodePcm16
    rw [List.map_cons, List.map_nil, h1]
    decide
  constructor
  · rw [h2]
    unfold decodeAudioData
    rw [if_neg (by decide), if_neg (by decide)]
    have h4 : int16OfBytes 254 127 = 32766 := by decide
    rw [decodeSamplesList, h4]
    norm_num [decodeSamplesList]
  · rw [abs_of_neg (by norm_num : (16383 : ℚ)/16384 - 65533/65534 < 0)]
    norm_num

/-- C3 (corrected).  Round trip within two quantization steps: for every
nonempty sample array with values in [-1,1], decoding the encoded byte
stream succeeds and reproduces each sample within 1/16384 (= 2/32768).
The one-step bound of the original claim is not achievable because
non-negative samples are scaled by 32767 but decoded by dividing by
32768; decoding the encoding of the empty array throws
(`ctx.createBuffer` rejects a zero frame count). -/
theorem C3_roundtrip_two_steps (s : List ℚ) (hne : s ≠ [])
    (h : ∀ x ∈ s, -1 ≤ x ∧ x ≤ 1) :
    ∃ out, decodeAudioData (encodePcm16 s) = some out
      ∧ List.Forall₂ (fun y x => |y - x| ≤ 1/16384) out s := by
  refine ⟨decodeSamplesList (encodePcm16 s), ?_, ?_⟩
  · have hl : 0 < s.length := List.length_pos.mpr hne
    unfold decodeAudioData
    rw [encodePcm16_length]
    rw [if_neg (by omega), if_neg (by omega)]
  · rw [decode_encode_list]
    rw [List.forall₂_map_left_iff, List.forall₂_same]
    intro x hx
    exact encodeSample_decode_close (h x hx).1 (h x hx).2

/-- Witness for C3 at the concrete sample array [0]. -/
theorem C3_roundtrip_two_steps_witness :
    ([(0 : ℚ)] ≠ []) ∧ (∀ x ∈ [(0 : ℚ)], -1 ≤ x ∧ x ≤ 1)
    ∧ ∃ out, decodeAudioData (encodePcm16 [(0 : ℚ)]) = some out
        ∧ List.Forall₂ (fun y x => |y - x| ≤ 1/16384) out [(0 : ℚ)] :=
  ⟨by simp, by simp, C3_roundtrip_two_steps [(0 : ℚ)] (by simp) (by simp)⟩

/-- C4 counterexample.  Decode of the odd-length buffer [0, 0, 0] throws
(the `Int16Array` construction rejects an odd byte length), while decode
of the same buffer with its trailing byte dropped returns normally with
one sample; so the odd-length decode neither returns normally nor
behaves as decode of the truncated buffer. -/
theorem C4_odd_length_counterexample :
    decodeAudioData [0, 0, 0] = none
    ∧ decodeAudioData (List.dropLast [0, 0, 0]) = some [0]
    ∧ decodeAudioData [0, 0, 0] ≠ decodeAudioData (List.dropLast [0, 0, 0]) := by
  have h1 : decodeAudioData [0, 0, 0] = none := rfl
  have h2 : decodeAudioData (List.dropLast [0, 0, 0]) = some [0] := by
    show decodeAudioData [0, 0] = some [0]
    unfold decodeAudioData
    rw [if_neg (by decide), if_neg (by decide)]
    have h3 : int16OfBytes 0 0 = 0 := by decide
    rw [decodeSamplesList, h3]
    norm_num [decodeSamplesList]
  refine ⟨h1, h2, ?_⟩
  rw [h1, h2]
  simp

/-- C4 (corrected).  Decoding an odd-length byte buffer always throws
(modelled as `none`): `new Int16Array(data.buffer)` raises a RangeError
when the byte length is not a multiple of 2, so the trailing byte is
never dropped.  Decoding an even-length buffer returns normally exactly
when the buffer is nonempty, with one sample per byte pair; the empty
buffer throws a NotSupportedError from `ctx.createBuffer(1, 0, 24000)`
(zero frame count). -/
theorem C4_odd_length_throws (b : List ℕ) :
    (b.length % 2 ≠ 0 → decodeAudioData b = none)
    ∧ (b.length % 2 = 0 → b ≠ [] →
        decodeAudioData b = some (decodeSamplesList b)
        ∧ (decodeSamplesList b).length = b.length / 2)
    ∧ (b = [] → decodeAudioData b = none) := by
  refine ⟨?_, ?_, ?_⟩
  · intro h
    unfold decodeAudioData
    rw [if_pos h]
  · intro h hne
    have hl : 0 < b.length := List.length_pos.mpr hne
    unfold decodeAudioData
    rw [if_neg (by omega), if_neg (by omega)]
    exact ⟨rfl, decodeSamplesList_length b⟩
  · intro h
    subst h
    rfl

/-- Witness for C4 at the concrete buffers [7] (odd), [0, 0] (even and
nonempty) and [] (empty). -/
theorem C4_odd_length_throws_witness :
    decodeAudioData [7] = none
    ∧ (decodeAudioData [0, 0] = some (decodeSamplesList [0, 0])
        ∧ (decodeSamplesList [0, 0]).length = [0, 0].length / 2)
    ∧ decodeAudioData [] = none :=
  ⟨(C4_odd_length_throws [7]).1 (by decide),
   (C4_odd_length_throws [0, 0]).2.1 (by decide) (by simp),
   (C4_odd_length_throws []).2.2 rfl⟩

/-! ## Tool-call dispatch (src/index.tsx lines 384-407) -/

/-- The scam-number list, src/index.tsx line 54. -/
def MOCK_SCAM_NUMBERS : List String := ["99998888", "0123456789", "99999999"]

/-- Does the character list start with the pattern list. -/
def leadsWith : List Char → List Char → Bool
  | _, [] => true
  | [], _ :: _ => false
  | c :: cs, d :: ds => c = d && leadsWith cs ds

/-- Does the character list contain the pattern list as a contiguous run. -/
def containsSeq : List Char → List Char → Bool
  | [], pat => pat.isEmpty
  | c :: cs, pat => leadsWith (c :: cs) pat || containsSeq cs pat

/-- JS `haystack.includes(needle)` on strings (line 393). -/
def jsIncludes (s pat : String) : Bool := containsSeq s.toList pat.toList

/-- The payload placed in `response.result` by the dispatch loop.  For
`searchNearbyEvents` the code returns the fixed constant
`{ events: MOCK_EVENTS }`; for `checkSuspiciousNumber` an object with an
`isSuspicious` flag and a message; for any other name the initial
`let result = {}` is left untouched and the empty object is sent. -/
inductive ToolPayload where
  | eventsResult
  | scamResult (isSuspicious : Bool) (message : String)
  | emptyObj
  deriving DecidableEq

/-- One entry of `msg.toolCall.functionCalls`: id, name, and the only
argument field any registered tool reads (`args.phoneNumber`). -/
structure ToolInvocation where
  id : String
  name : String
  phoneNumber : Option String
  deriving DecidableEq

/-- One `sendToolResponse` call: `{ id, name, response: { result } }`. -/
structure ToolResult where
  id : String
  name : String
  payload : ToolPayload
  deriving DecidableEq

/-- The body of the dispatch loop for one function call
(src/index.tsx lines 386-405). -/
def dispatchToolCall (fc : ToolInvocation) : ToolResult :=
  if fc.name = "searchNearbyEvents" then
    ⟨fc.id, fc.name, ToolPayload.eventsResult⟩
  else if fc.name = "checkSuspiciousNumber" then
    let num := fc.phoneNumber.getD ""
    let isScam := MOCK_SCAM_NUMBERS.any fun n => jsIncludes num n
    ⟨fc.id, fc.name,
      ToolPayload.scamResult isScam
        (if isScam then "DANGER: Scam detected." else "Seems safe.")⟩
  else
    ⟨fc.id, fc.name, ToolPayload.emptyObj⟩

/-- The `for (const fc of msg.toolCall.functionCalls)` loop: one response
is transmitted per received invocation, in order. -/
def handleToolCalls (fcs : List ToolInvocation) : List ToolResult :=
  fcs.map dispatchToolCall

/-- C1 counterexample.  An invocation whose name is outside the known
set {searchNearbyEvents, checkSuspiciousNumber} is answered with the
empty-object payload (`let result = {}` is never reassigned), not with
any explicit unsupported marker — the very outcome the claim excludes. -/
theorem C1_unknown_tool_empty_payload :
    handleToolCalls [⟨"call-7", "bookTaxi", none⟩]
      = [⟨"call-7", "bookTaxi", ToolPayload.emptyObj⟩]
    ∧ (dispatchToolCall ⟨"call-7", "bookTaxi", none⟩).payload
      = ToolPayload.emptyObj := by
  constructor <;> rfl

/-- C1 (corrected).  For every `ToolInvocation` received in an inbound
message, exactly one `ToolResult` carrying the same invocation id (and
name) is transmitted back — including for names outside the known set,
which are not dropped; but an unknown name is answered with the empty
object payload `{}` rather than an explicit unsupported result. -/
theorem C1_dispatch_completeness (fcs : List ToolInvocation) :
    List.Forall₂ (fun r fc => r.id = fc.id ∧ r.name = fc.name)
      (handleToolCalls fcs) fcs
    ∧ ∀ fc ∈ fcs, fc.name ≠ "searchNearbyEvents" →
        fc.name ≠ "checkSuspiciousNumber" →
        (dispatchToolCall fc).payload = ToolPayload.emptyObj := by
  constructor
  · unfold handleToolCalls
    rw [List.forall₂_map_left_iff, List.forall₂_same]
    intro fc _
    unfold dispatchToolCall
    split <;> [skip; split] <;> exact ⟨rfl, rfl⟩
  · intro fc _ h1 h2
    unfold dispatchToolCall
    rw [if_neg h1, if_neg h2]

/-- Witness for C1 at a concrete two-invocation message with one known
and one unknown tool name. -/
theorem C1_dispatch_completeness_witness :
    List.Forall₂ (fun (r : ToolResult) (fc : ToolInvocation) =>
        r.id = fc.id ∧ r.name = fc.name)
      (handleToolCalls [⟨"a1", "searchNearbyEvents", none⟩, ⟨"a2", "bookTaxi", none⟩])
      [⟨"a1", "searchNearbyEvents", none⟩, ⟨"a2", "bookTaxi", none⟩]
    ∧ (dispatchToolCall ⟨"a2", "bookTaxi", none⟩).payload = ToolPayload.emptyObj :=
  ⟨(C1_dispatch_completeness
      [⟨"a1", "searchNearbyEvents", none⟩, ⟨"a2", "bookTaxi", none⟩]).1,
   (C1_dispatch_completeness [⟨"a2", "bookTaxi", none⟩]).2
      ⟨"a2", "bookTaxi", none⟩ (by simp) (by decide) (by decide)⟩

/-! ## Capture callback (src/index.tsx lines 329-360) -/

/-- The volume meter of the capture callback, lines 336-339:
`rms = sqrt(sum of squares / length)` and
`setVolumeLevel(Math.min(rms * 1000, 100))`. -/
noncomputable def volumeOf (frame : List ℚ) : ℝ :=
  min (Real.sqrt (((frame.map fun x => x * x).sum / frame.length : ℚ) : ℝ) * 1000) 100

/-- Observable state written by one run of `processor.onaudioprocess`:
the volume meter and the list of encoded chunks handed to the session. -/
structure CaptureState where
  volumeLevel : ℝ
  sent : List (List ℤ)

/-- One firing of `processor.onaudioprocess` (lines 329-360).  The first
statement is `if (!isMicOn) return;`, before the volume computation, so
a disabled mic skips the entire body; otherwise the volume is updated
and exactly one PCM16-encoded chunk is transmitted. -/
noncomputable def onAudioProcess (micOn : Bool) (frame : List ℚ)
    (st : CaptureState) : CaptureState :=
  if !micOn then st
  else ⟨volumeOf frame, st.sent ++ [frame.map encodeSample]⟩

/-- The capture-graph wiring affected (or not) by the mic button. -/
structure AudioGraph where
  micOn : Bool
  sourceConnected : Bool
  processorConnected : Bool

/-- The mic button handler, line 657: `setIsMicOn(!isMicOn)` — it only
flips the flag. -/
def toggleMic (g : AudioGraph) : AudioGraph :=
  { g with micOn := !g.micOn }

/-- C5 counterexample.  A callback that fires with the mic flag false on
a frame of full-scale samples leaves the volume level unchanged (here 0),
while the volume the claim says is still computed is 100: the early
`return` skips the volume computation, not just the transmission. -/
theorem C5_volume_not_updated_when_muted :
    (onAudioProcess false [1] ⟨0, []⟩).volumeLevel ≠ volumeOf [1] := by
  have h1 : (onAudioProcess false [1] ⟨0, []⟩).volumeLevel = 0 := rfl
  have h2 : volumeOf [1] = 100 := by
    unfold volumeOf
    norm_num
  rw [h1, h2]
  norm_num

/-- C5 (corrected).  While the mic-enabled flag is false the capture
callback is a complete no-op: the early `return` suppresses the volume
computation as well as the transmission, leaving the state untouched.
While the flag is true the callback updates the volume from the frame
RMS and transmits exactly one encoded chunk.  Toggling the flag never
stops or restarts the capture graph: it only flips the flag. -/
theorem C5_mute_gates_whole_callback :
    (∀ (frame : List ℚ) (st : CaptureState), onAudioProcess false frame st = st)
    ∧ (∀ (frame : List ℚ) (st : CaptureState),
        (onAudioProcess true frame st).volumeLevel = volumeOf frame
        ∧ (onAudioProcess true frame st).sent = st.sent ++ [frame.map encodeSample])
    ∧ (∀ g : AudioGraph,
        (toggleMic g).sourceConnected = g.sourceConnected
        ∧ (toggleMic g).processorConnected = g.processorConnected) :=
  ⟨fun _ _ => rfl, fun _ _ => ⟨rfl, rfl⟩, fun _ => ⟨rfl, rfl⟩⟩

/-! ## Call signaling (src/unnamed/part_001 lines 1350-1527)

The Firebase relay store is modelled by its two families of entries,
`calls/{id}` and `candidates/{id}`; `remove(ref(db, path))` deletes the
entry at `path` and nothing else.  The RTCPeerConnection and the local
media stream are modelled by the fields the code reads and writes. -/

/-- One `calls/{id}` record: either an offer `{type: offer, from,
fromName, offer}` (written by `initiateCall`) or an answer
`{type: answer, from, answer}` (written by `acceptCall`). -/
inductive CallRecord where
  | offer (fromId fromName sdp : String)
  | answer (fromId sdp : String)
  deriving DecidableEq

/-- One entry of the append-only `candidates/{id}` list. -/
structure Candidate where
  fromId : String
  candidate : String
  deriving DecidableEq

/-- The relay-store slice the call functions touch. -/
structure RelayStore where
  calls : String → Option CallRecord
  candidates : String → List Candidate

/-- Firebase `remove(ref(db, calls/id))`. -/
def removeCall (db : RelayStore) (id : String) : RelayStore :=
  { db with calls := fun k => if k = id then none else db.calls k }

/-- Firebase `remove(ref(db, candidates/id))`. -/
def removeCandidates (db : RelayStore) (id : String) : RelayStore :=
  { db with candidates := fun k => if k = id then [] else db.candidates k }

/-- Firebase `set(ref(db, calls/id), r)`. -/
def setCall (db : RelayStore) (id : String) (r : CallRecord) : RelayStore :=
  { db with calls := fun k => if k = id then some r else db.calls k }

/-- The React `callState` object. -/
structure CallState where
  isInCall : Bool
  callType : Option String
  remoteUserId : Option String
  remoteUserName : Option String
  deriving DecidableEq

/-- The reset value `{isInCall: false, callType: null, remoteUserId:
null, remoteUserName: null}` used by `endCall` and `declineCall`. -/
def idleCallState : CallState := ⟨false, none, none, none⟩

/-- Client-side call-session state plus the relay store: the `callState`
React state, whether a live peer connection is held
(`peerConnectionRef.current` non-null and not closed), and whether local
media tracks are held and running (`localStreamRef.current`). -/
structure ConnectState where
  callState : CallState
  pcOpen : Bool
  localTracksLive : Bool
  db : RelayStore

/-- The function `endCall` (part_001 lines 1488-1516): close and null
the peer connection, stop and null the local tracks, remove
`calls/{remote}` and `candidates/{remote}` when a remote participant is
recorded, remove `calls/{myUserId}` and `candidates/{myUserId}`, and
reset `callState`. -/
def endCall (myUserId : String) (st : ConnectState) : ConnectState :=
  let db1 := match st.callState.remoteUserId with
    | some rid => removeCandidates (removeCall st.db rid) rid
    | none => st.db
  { callState := idleCallState
    pcOpen := false
    localTracksLive := false
    db := removeCandidates (removeCall db1 myUserId) myUserId }

/-- The function `declineCall` (part_001 lines 1518-1527): remove only
`calls/{myUserId}` and reset `callState`; nothing else is touched. -/
def declineCall (myUserId : String) (st : ConnectState) : ConnectState :=
  { st with
    callState := idleCallState
    db := removeCall st.db myUserId }

/-- The function `initiateCall` (part_001 lines 1350-1423).  The guard is
`if (!currentUser || callState.isInCall) return;`.  On the non-returning
path the code acquires local audio, creates a peer connection, posts
`{type: offer, from: myUserId, fromName, offer}` at `calls/{friendId}`,
and marks the call outgoing.  The SDP produced by the browser is passed
in as `offerSdp`. -/
def initiateCall (hasUser : Bool) (myUserId myName friendId friendName offerSdp : String)
    (st : ConnectState) : ConnectState :=
  if !hasUser || st.callState.isInCall then st
  else
    { callState := ⟨true, some "outgoing", some friendId, some friendName⟩
      pcOpen := true
      localTracksLive := true
      db := setCall st.db friendId (CallRecord.offer myUserId myName offerSdp) }

/-! ### Signaling callbacks and the stale-connection guard

Each relay-store listener first checks the data snapshot and then
`pc.signalingState !== closed` before touching the peer connection or
the store.  The browser-owned `signalingState` is carried as a field;
the callbacks below mutate only the description/candidate fields the
code writes through the WebRTC API. -/

/-- RTCPeerConnection signaling state, as far as the guards read it. -/
inductive SigState where
  | stable
  | haveLocalOffer
  | haveRemoteOffer
  | closed
  deriving DecidableEq

/-- The peer-connection session fields written by the listeners. -/
structure PCSession where
  signalingState : SigState
  remoteDesc : Option String
  localDesc : Option String
  iceCandidates : List String
  deriving DecidableEq

/-- The answer listener registered by `initiateCall` (lines 1404-1409):
`if (data && data.type === answer && pc.signalingState !== closed)`
then `setRemoteDescription(data.answer)`. -/
def onAnswerValue (data : Option CallRecord) (pc : PCSession) : PCSession :=
  match data with
  | some (CallRecord.answer _ sdp) =>
    if pc.signalingState ≠ SigState.closed then { pc with remoteDesc := some sdp }
    else pc
  | _ => pc

/-- The candidate listener registered by both `initiateCall` (lines
1412-1417) and `acceptCall` (lines 1473-1478):
`if (data && data.candidate && pc.signalingState !== closed)` then
`addIceCandidate(data.candidate)`. -/
def onCandidateAdded (data : Option Candidate) (pc : PCSession) : PCSession :=
  match data with
  | some c =>
    if pc.signalingState ≠ SigState.closed then
      { pc with iceCandidates := pc.iceCandidates ++ [c.candidate] }
    else pc
  | none => pc

/-- The offer listener registered by `acceptCall` (lines 1456-1470):
`if (data && data.offer && pc.signalingState !== closed)` then apply
the remote offer, create and set a local answer (`answerSdp`, produced
by the browser), and write `{type: answer, from: myUserId, answer}` at
`calls/{remoteUserId}`. -/
def onOfferValue (remoteUserId myUserId answerSdp : String)
    (data : Option CallRecord) (pc : PCSession) (db : RelayStore) :
    PCSession × RelayStore :=
  match data with
  | some (CallRecord.offer _ _ sdp) =>
    if pc.signalingState ≠ SigState.closed then
      ({ pc with remoteDesc := some sdp, localDesc := some answerSdp },
       setCall db remoteUserId (CallRecord.answer myUserId answerSdp))
    else (pc, db)
  | _ => (pc, db)

/-! ### Session/call interleaving (part_001: `startSession` lines
1531-1580, `initiateCall` lines 1350-1363)

The relevant top-level flags: whether a user is signed in
(`currentUser`), whether the streaming session is active (`connected`),
and whether a call is active (`callState.isInCall`).  `startSession`
sets `connected` unconditionally and never reads the call state;
`initiateCall` is guarded only by `!currentUser || callState.isInCall`
and never reads `connected`. -/

structure AppState where
  hasUser : Bool
  connected : Bool
  isInCall : Bool
  deriving DecidableEq

/-- Auth callback setting `currentUser`. -/
def signInStep (s : AppState) : AppState := { s with hasUser := true }

/-- The flag effect of `startSession`: `setConnected(true)` with no call
check anywhere in the function. -/
def startSessionStep (s : AppState) : AppState := { s with connected := true }

/-- The flag effect of `stopSession`: `setConnected(false)`. -/
def stopSessionStep (s : AppState) : AppState := { s with connected := false }

/-- The flag effect of `initiateCall`: early return unless a user is
signed in and no call is active; no session check. -/
def initiateCallStep (s : AppState) : AppState :=
  if !s.hasUser || s.isInCall then s else { s with isInCall := true }

/-- The flag effect of `endCall`: `setCallState({isInCall: false, ...})`. -/
def endCallStep (s : AppState) : AppState := { s with isInCall := false }

/-- The user- and network-driven events that move the top-level flags. -/
inductive AppStep : AppState → AppState → Prop where
  | signIn (s : AppState) : AppStep s (signInStep s)
  | startSession (s : AppState) : AppStep s (startSessionStep s)
  | stopSession (s : AppState) : AppStep s (stopSessionStep s)
  | initiateCall (s : AppState) : AppStep s (initiateCallStep s)
  | endCall (s : AppState) : AppStep s (endCallStep s)

/-- Reachability from the initial state (signed out, no session,
no call). -/
def AppReachable (s : AppState) : Prop :=
  Relation.ReflTransGen AppStep ⟨false, false, false⟩ s

/-- The state with both the streaming session and a call active is
reachable: sign in, start the session, then initiate a call — no guard
stops the third step. -/
lemma both_active_reachable : AppReachable ⟨true, true, true⟩ :=
  Relation.ReflTransGen.tail
    (Relation.ReflTransGen.tail
      (Relation.ReflTransGen.single (AppStep.signIn ⟨false, false, false⟩))
      (AppStep.startSession ⟨true, false, false⟩))
    (AppStep.initiateCall ⟨true, true, false⟩)

/-! ## Claim theorems: call subsystem -/

/-- C6 (confirmed).  Ending an active call clears the signaling records of both participants (`calls/{remote}`, `calls/{myUserId}`) and candidate
records (`candidates/{remote}`, `candidates/{myUserId}`) in the relay
store, stops the local media tracks, closes the peer connection, and
resets the call state to idle. -/
theorem C6_endCall_clears_everything (myUserId rid : String) (st : ConnectState)
    (h : st.callState.remoteUserId = some rid) :
    (endCall myUserId st).db.calls rid = none
    ∧ (endCall myUserId st).db.calls myUserId = none
    ∧ (endCall myUserId st).db.candidates rid = []
    ∧ (endCall myUserId st).db.candidates myUserId = []
    ∧ (endCall myUserId st).localTracksLive = false
    ∧ (endCall myUserId st).pcOpen = false
    ∧ (endCall myUserId st).callState = idleCallState := by
  unfold endCall
  rw [h]
  unfold removeCall removeCandidates
  refine ⟨?_, ?_, ?_, ?_, rfl, rfl, rfl⟩ <;> simp only [] <;> split_ifs <;> simp

/-- Witness for C6: a concrete caller "A" ending an active call with
remote participant "B", on a store holding records for both. -/
theorem C6_endCall_clears_everything_witness :
    (ConnectState.mk ⟨true, some "outgoing", some "B", some "Bob"⟩ true true
        ⟨fun _ => some (CallRecord.offer "A" "Alice" "sdpO"),
         fun _ => [⟨"A", "cand1"⟩]⟩).callState.remoteUserId = some "B"
    ∧ ((endCall "A"
        (ConnectState.mk ⟨true, some "outgoing", some "B", some "Bob"⟩ true true
          ⟨fun _ => some (CallRecord.offer "A" "Alice" "sdpO"),
           fun _ => [⟨"A", "cand1"⟩]⟩)).db.calls "B" = none
      ∧ (endCall "A"
          (ConnectState.mk ⟨true, some "outgoing", some "B", some "Bob"⟩ true true
            ⟨fun _ => some (CallRecord.offer "A" "Alice" "sdpO"),
             fun _ => [⟨"A", "cand1"⟩]⟩)).db.calls "A" = none
      ∧ (endCall "A"
          (ConnectState.mk ⟨true, some "outgoing", some "B", some "Bob"⟩ true true
            ⟨fun _ => some (CallRecord.offer "A" "Alice" "sdpO"),
             fun _ => [⟨"A", "cand1"⟩]⟩)).db.candidates "B" = []
      ∧ (endCall "A"
          (ConnectState.mk ⟨true, some "outgoing", some "B", some "Bob"⟩ true true
            ⟨fun _ => some (CallRecord.offer "A" "Alice" "sdpO"),
             fun _ => [⟨"A", "cand1"⟩]⟩)).db.candidates "A" = []
      ∧ (endCall "A"
          (ConnectState.mk ⟨true, some "outgoing", some "B", some "Bob"⟩ true true
            ⟨fun _ => some (CallRecord.offer "A" "Alice" "sdpO"),
             fun _ => [⟨"A", "cand1"⟩]⟩)).localTracksLive = false
      ∧ (endCall "A"
          (ConnectState.mk ⟨true, some "outgoing", some "B", some "Bob"⟩ true true
            ⟨fun _ => some (CallRecord.offer "A" "Alice" "sdpO"),
             fun _ => [⟨"A", "cand1"⟩]⟩)).pcOpen = false
      ∧ (endCall "A"
          (ConnectState.mk ⟨true, some "outgoing", some "B", some "Bob"⟩ true true
            ⟨fun _ => some (CallRecord.offer "A" "Alice" "sdpO"),
             fun _ => [⟨"A", "cand1"⟩]⟩)).callState = idleCallState) :=
  ⟨rfl, C6_endCall_clears_everything "A" "B" _ rfl⟩

/-- C7 (confirmed).  Declining a call removes only the own signaling record of the callee: `calls/{myUserId}` becomes absent, every other
signaling address is untouched (in particular no Answer is ever
posted), the candidate records are untouched, and the call state
returns to idle. -/
theorem C7_declineCall_own_record_only (myUserId : String) (st : ConnectState) :
    (declineCall myUserId st).db.calls myUserId = none
    ∧ (∀ k, k ≠ myUserId → (declineCall myUserId st).db.calls k = st.db.calls k)
    ∧ (declineCall myUserId st).db.candidates = st.db.candidates
    ∧ (declineCall myUserId st).callState = idleCallState
    ∧ (declineCall myUserId st).pcOpen = st.pcOpen
    ∧ (declineCall myUserId st).localTracksLive = st.localTracksLive := by
  unfold declineCall removeCall
  refine ⟨by simp, ?_, rfl, rfl, rfl, rfl⟩
  intro k hk
  simp [hk]

/-- Witness for C7: callee "B" declines; the record of caller "A" at
`calls/"A"` is untouched while `calls/"B"` is cleared. -/
theorem C7_declineCall_own_record_only_witness :
    (declineCall "B"
        (ConnectState.mk ⟨false, some "incoming", some "A", some "Alice"⟩ false false
          ⟨fun _ => some (CallRecord.offer "A" "Alice" "sdpO"), fun _ => []⟩)).db.calls "B"
      = none
    ∧ (declineCall "B"
        (ConnectState.mk ⟨false, some "incoming", some "A", some "Alice"⟩ false false
          ⟨fun _ => some (CallRecord.offer "A" "Alice" "sdpO"), fun _ => []⟩)).db.calls "A"
      = (ConnectState.mk ⟨false, some "incoming", some "A", some "Alice"⟩ false false
          ⟨fun _ => some (CallRecord.offer "A" "Alice" "sdpO"), fun _ => []⟩).db.calls "A" :=
  ⟨(C7_declineCall_own_record_only "B" _).1,
   (C7_declineCall_own_record_only "B" _).2.1 "A" (by decide)⟩

/-- C8 (confirmed).  Every signaling callback — the Answer listener, the
candidate listeners, and the Offer listener — is a no-op once the signaling
state of the peer connection is closed: no session field and no relay
record is mutated by a late callback. -/
theorem C8_stale_callback_guard (pc : PCSession)
    (h : pc.signalingState = SigState.closed) :
    (∀ data, onAnswerValue data pc = pc)
    ∧ (∀ data, onCandidateAdded data pc = pc)
    ∧ (∀ (remoteUserId myUserId answerSdp : String) (data : Option CallRecord)
        (db : RelayStore),
        onOfferValue remoteUserId myUserId answerSdp data pc db = (pc, db)) := by
  refine ⟨?_, ?_, ?_⟩
  · intro data
    unfold onAnswerValue
    cases data with
    | none => rfl
    | some r => cases r <;> simp [h]
  · intro data
    unfold onCandidateAdded
    cases data with
    | none => rfl
    | some c => simp [h]
  · intro remoteUserId myUserId answerSdp data db
    unfold onOfferValue
    cases data with
    | none => rfl
    | some r => cases r <;> simp [h]

/-- Witness for C8: a closed connection ignores a concrete late answer,
late candidate, and late offer. -/
theorem C8_stale_callback_guard_witness :
    (PCSession.mk SigState.closed none none []).signalingState = SigState.closed
    ∧ onAnswerValue (some (CallRecord.answer "B" "sdpA"))
        (PCSession.mk SigState.closed none none [])
      = PCSession.mk SigState.closed none none []
    ∧ onCandidateAdded (some ⟨"B", "cand9"⟩)
        (PCSession.mk SigState.closed none none [])
      = PCSession.mk SigState.closed none none [] :=
  ⟨rfl,
   (C8_stale_callback_guard _ rfl).1 (some (CallRecord.answer "B" "sdpA")),
   (C8_stale_callback_guard _ rfl).2.1 (some ⟨"B", "cand9"⟩)⟩

/-- C9 counterexample.  The state in which the streaming session and a
peer-to-peer call are active at the same time is reachable: sign in,
`startSession` (which performs no call check), then `initiateCall`
(which performs no session check). -/
theorem C9_both_consumers_active_reachable :
    AppReachable ⟨true, true, true⟩ :=
  both_active_reachable

/-- C9 (corrected).  The only exclusivity the code enforces is at the
call level: `initiateCall` is a no-op while a call is already active.
Nothing serializes the streaming session against calls — `startSession`
never checks `callState.isInCall` and `initiateCall` never checks
`connected` — so a state with both capture-device consumers active is
reachable. -/
theorem C9_no_session_call_exclusivity :
    (∀ s : AppState, s.isInCall = true → initiateCallStep s = s)
    ∧ AppReachable ⟨true, true, true⟩ := by
  refine ⟨?_, both_active_reachable⟩
  intro s h
  unfold initiateCallStep
  rw [h]
  simp

/-- Witness for C9 at the concrete state already in a call. -/
theorem C9_no_session_call_exclusivity_witness :
    (AppState.mk true true true).isInCall = true
    ∧ initiateCallStep ⟨true, true, true⟩ = ⟨true, true, true⟩ :=
  ⟨rfl, C9_no_session_call_exclusivity.1 ⟨true, true, true⟩ rfl⟩

/-- C10 (confirmed).  Calling `initiateCall` while `callState.isInCall`
is true returns at the guard: no media acquisition, no peer connection,
no relay write, and an entirely unchanged state. -/
theorem C10_initiateCall_noop_when_in_call
    (hasUser : Bool) (myUserId myName friendId friendName offerSdp : String)
    (st : ConnectState) (h : st.callState.isInCall = true) :
    initiateCall hasUser myUserId myName friendId friendName offerSdp st = st := by
  unfold initiateCall
  rw [h]
  simp

/-- Witness for C10: a concrete second call attempt during an active
call changes nothing. -/
theorem C10_initiateCall_noop_when_in_call_witness :
    (ConnectState.mk ⟨true, some "outgoing", some "B", some "Bob"⟩ true true
        ⟨fun _ => none, fun _ => []⟩).callState.isInCall = true
    ∧ initiateCall true "A" "Alice" "C" "Carol" "sdpX"
        (ConnectState.mk ⟨true, some "outgoing", some "B", some "Bob"⟩ true true
          ⟨fun _ => none, fun _ => []⟩)
      = ConnectState.mk ⟨true, some "outgoing", some "B", some "Bob"⟩ true true
          ⟨fun _ => none, fun _ => []⟩ :=
  ⟨rfl, C10_initiateCall_noop_when_in_call true "A" "Alice" "C" "Carol" "sdpX" _ rfl⟩

end KampungAI
